import Mathlib

/-!
Verification of the org-pulse collection/aggregation pipeline and dashboard
state machine, shallowly embedded from the Rust sources.

Conventions of the embedding:
* Machine integers (`i64`, `u64`, `usize`) that only ever count upwards from
  zero are modelled as `Nat`; database ids and timestamps are modelled as
  `Int` (seconds for timestamps, so `chrono::Duration::days n` is
  `n * 86400`).
* A compiled `regex::Regex` is only ever observed through
  `regex.find(s).is_some()`, so an ignore pattern is modelled as the induced
  predicate `String → Bool`.
* `HashMap<String, T>` with the `entry().or_insert_with()` API is modelled as
  an association list with first-match update; only lookups and value
  multisets are ever observed, which the list model reproduces.
* External collaborators (GitHub client, sqlite store) are modelled as
  explicit inputs: fetched records are list arguments, queries are fields of
  a `Db` record of functions, and the scrape run's outcome is an
  `Except String Unit` argument.
-/

namespace OrgPulse

/-! ### Raw activity records (the fields of `octocrab` records used by the code) -/

/-- Commit record: `src/scraper.rs` only reads `commit.author` and, when
present, `author.login`. -/
structure RepoCommit where
  author : Option String
deriving DecidableEq, Repr

/-- Pull-request record: the code reads `pr.user` (login), `pr.merged_at`,
`pr.additions` and `pr.deletions`. -/
structure PullRequest where
  user : Option String
  merged_at : Option Int
  additions : Option Nat
  deletions : Option Nat
deriving DecidableEq, Repr

/-! ### Aggregator (`TempRepoScrape`, src/scraper.rs lines 10-85) -/

/-- Mirrors `TempContributorData` in src/scraper.rs. -/
structure TempContributorData where
  username : String
  commits : Nat
  lines : Nat
deriving DecidableEq, Repr

/-- Mirrors `TempRepoScrape` in src/scraper.rs; `contributors` is the
`HashMap<String, TempContributorData>` as an association list. -/
structure TempRepoScrape where
  contributors : List (String × TempContributorData)
  total_commits : Nat
  total_prs : Nat
  total_lines : Nat
deriving DecidableEq, Repr

/-- Mirrors `TempRepoScrape::new` (the org/repo name arguments are unused in
the source as well). -/
def TempRepoScrape.new : TempRepoScrape :=
  { contributors := [], total_commits := 0, total_prs := 0, total_lines := 0 }

/-- The `HashMap::entry(key).or_insert_with(|| init)` followed by a mutation
`f` of the entry, as used by both `process_commit` and `process_pr`. -/
def updateContributor (key : String) (f : TempContributorData → TempContributorData)
    (init : TempContributorData) :
    List (String × TempContributorData) → List (String × TempContributorData)
  | [] => [(key, f init)]
  | (k, v) :: rest =>
      if k = key then (k, f v) :: rest else (k, v) :: updateContributor key f init rest

/-- Author resolution in `process_commit`: `author.login`, or the literal
`"anonymous"` when the record has no author. -/
def resolvedCommitAuthor (c : RepoCommit) : String :=
  c.author.getD "anonymous"

/-- Author resolution in `process_pr`. -/
def resolvedPrAuthor (p : PullRequest) : String :=
  p.user.getD "anonymous"

/-- `pr.additions.unwrap_or_default() + pr.deletions.unwrap_or_default()`. -/
def prLineCount (p : PullRequest) : Nat :=
  p.additions.getD 0 + p.deletions.getD 0

/-- Mirrors `TempRepoScrape::process_commit` (src/scraper.rs lines 36-58);
`ignore` is the predicate induced by `user_ignore_regex`. -/
def process_commit (s : TempRepoScrape) (commit : RepoCommit) (ignore : String → Bool) :
    TempRepoScrape :=
  let commit_author := resolvedCommitAuthor commit
  if ignore commit_author then s
  else
    { s with
      total_commits := s.total_commits + 1
      contributors :=
        updateContributor commit_author (fun c => { c with commits := c.commits + 1 })
          { username := commit_author, commits := 0, lines := 0 } s.contributors }

/-- Mirrors `TempRepoScrape::process_pr` (src/scraper.rs lines 60-84). -/
def process_pr (s : TempRepoScrape) (pr : PullRequest) (ignore : String → Bool) :
    TempRepoScrape :=
  let author := resolvedPrAuthor pr
  if ignore author then s
  else
    { s with
      contributors :=
        updateContributor author (fun c => { c with lines := c.lines + prLineCount pr })
          { username := author, commits := 0, lines := 0 } s.contributors
      total_prs := s.total_prs + 1
      total_lines := s.total_lines + prLineCount pr }

/-- Lookup in the contributors map. -/
def lookupContributor (m : List (String × TempContributorData)) (u : String) :
    Option TempContributorData :=
  match m with
  | [] => none
  | (k, v) :: rest => if k = u then some v else lookupContributor rest u

/-- Commit counter recorded for username `u` (0 when absent). -/
def contributorCommits (s : TempRepoScrape) (u : String) : Nat :=
  ((lookupContributor s.contributors u).map (fun c => c.commits)).getD 0

/-- Line counter recorded for username `u` (0 when absent). -/
def contributorLines (s : TempRepoScrape) (u : String) : Nat :=
  ((lookupContributor s.contributors u).map (fun c => c.lines)).getD 0

/-- Feeding a list of commits into a fresh aggregator, as `run_scrape` does. -/
def aggregateCommits (commits : List RepoCommit) (ignore : String → Bool) : TempRepoScrape :=
  commits.foldl (fun s c => process_commit s c ignore) TempRepoScrape.new

/-- Sum of the per-contributor commit counters. -/
def sumCommits (m : List (String × TempContributorData)) : Nat :=
  (m.map (fun p => p.2.commits)).sum

/-- Sum of the per-contributor line counters. -/
def sumLines (m : List (String × TempContributorData)) : Nat :=
  (m.map (fun p => p.2.lines)).sum

/-! ### Reachable aggregator states (any interleaving of commit and PR records) -/

/-- States reachable from `TempRepoScrape::new` by any sequence of
`process_commit` / `process_pr` calls with a fixed ignore pattern. -/
inductive AggReachable (ignore : String → Bool) : TempRepoScrape → Prop
  | init : AggReachable ignore TempRepoScrape.new
  | commit (s : TempRepoScrape) (c : RepoCommit) :
      AggReachable ignore s → AggReachable ignore (process_commit s c ignore)
  | pr (s : TempRepoScrape) (p : PullRequest) :
      AggReachable ignore s → AggReachable ignore (process_pr s p ignore)

/-! ### Collection Orchestrator (`run_scrape`, src/scraper.rs lines 87-180) -/

/-- Result of a per-repository commit fetch (`gh.get_repo_commits`); the
orchestrator only distinguishes success (a page of commits) from failure. -/
inductive FetchResult (α : Type) where
  | ok (val : α)
  | err
deriving DecidableEq

/-- The data of one `RepoScrape` row plus its `ContributorScrapes` children as
persisted at src/scraper.rs lines 149-170. -/
structure RepoSnapshotRow where
  commits : Nat
  prs : Nat
  lines : Nat
  contributors : List (String × TempContributorData)
deriving DecidableEq

/-- Mirrors the per-repository body of `run_scrape` (src/scraper.rs lines
129-170): a failed commit fetch skips the repository; a fetch returning zero
commits skips the repository (the counter counts *fetched* commits, before
ignore filtering); otherwise commits and then the given pull requests are fed
into a fresh aggregator and the totals are persisted as one row. -/
def processRepo (ignore : String → Bool) (fetched : FetchResult (List RepoCommit))
    (prs : List PullRequest) : Option RepoSnapshotRow :=
  match fetched with
  | FetchResult.err => none
  | FetchResult.ok commits =>
      let agg := commits.foldl (fun s c => process_commit s c ignore) TempRepoScrape.new
      let commit_counter := commits.length
      if commit_counter = 0 then none
      else
        let agg2 := prs.foldl (fun s p => process_pr s p ignore) agg
        some { commits := agg2.total_commits, prs := agg2.total_prs,
               lines := agg2.total_lines, contributors := agg2.contributors }

/-- Mirrors `Github::get_repo_prs` (src/github.rs lines 46-72): walk the
fetched page in order; an unmerged PR is skipped; a PR merged strictly before
`since` RETURNS the accumulated result (ending the walk); otherwise the PR is
appended. -/
def selectPrs (since : Int) : List PullRequest → List PullRequest
  | [] => []
  | d :: rest =>
      match d.merged_at with
      | some dt => if dt < since then [] else d :: selectPrs since rest
      | none => selectPrs since rest

/-- Predicate: the PR is not merged strictly before the window start (an
unmerged PR also satisfies it, it is dropped separately). -/
def prNotBeforeWindow (since : Int) (p : PullRequest) : Bool :=
  match p.merged_at with
  | some dt => !(decide (dt < since))
  | none => true

/-- Mirrors `AppConfig` (src/config.rs lines 6-15). -/
structure AppConfig where
  organizations : List String
  days : Nat
  include_private : Bool
  rate_limit_delay_ms : Nat
  ignored_org_pattern : String
  ignored_user_patterns : String
  ignored_repo_patterns : String
deriving DecidableEq

/-- Mirrors `chrono::Duration::days` in seconds. -/
def durationDays (n : Nat) : Int :=
  (n : Int) * 86400

/-- A `scrapes` table row as created by `Scrape::create`. -/
structure ScrapeRow where
  start_time : Int
  end_time : Int
deriving DecidableEq

/-- Mirrors the snapshot stamping in `run_scrape` (src/scraper.rs lines
100-105): `start_time = Utc::now() - Duration::days(7)` and
`end_time = Utc::now()` (two separate clock reads). The loaded `cfg` is in
scope but its `days` field is not consulted, exactly as in the source. -/
def scrapeWindow (cfg : AppConfig) (now1 now2 : Int) : ScrapeRow :=
  { start_time := now1 - durationDays 7, end_time := now2 }

/-- The list of `Scrape` rows created by one `run_scrape` call: exactly the
single `Scrape::create` at src/scraper.rs line 105. -/
def runScrapeSnapshots (cfg : AppConfig) (now1 now2 : Int) : List ScrapeRow :=
  [scrapeWindow cfg now1 now2]

/-! ### Dashboard data model (src/stats.rs, src/app/state.rs) -/

/-- Mirrors `View` (src/app/state.rs lines 33-42). -/
inductive View where
  | Org
  | Repo
  | Contributors
  | ScrapeSelection
  | OrgDetail
  | RepoDetail
  | ContributorDetail
deriving DecidableEq, Repr

/-- Mirrors `SortField` (src/app/state.rs lines 44-51). -/
inductive SortField where
  | Name
  | Commits
  | Lines
  | Repos
  | Prs
deriving DecidableEq, Repr

/-- Mirrors `SortOrder` (src/app/state.rs lines 53-57). -/
inductive SortOrder where
  | Ascending
  | Descending
deriving DecidableEq, Repr

/-- Mirrors `OrgStats` (src/stats.rs). -/
structure OrgStats where
  name : String
  total_commits : Int
  total_lines : Int
  repo_count : Int
  contributor_count : Int
deriving DecidableEq, Repr

/-- Mirrors `RepoStats` (src/stats.rs). -/
structure RepoStats where
  org_name : String
  repo_name : String
  commits : Int
  lines : Int
  prs : Int
  contributor_count : Int
deriving DecidableEq, Repr

/-- Mirrors `ContributorStats` (src/stats.rs). -/
structure ContributorStats where
  username : String
  total_commits : Int
  total_lines : Int
  repo_count : Int
  orgs : List String
deriving DecidableEq, Repr

/-- Mirrors `ScrapeInfo` (src/stats.rs); timestamps as integer seconds. -/
structure ScrapeInfo where
  id : Int
  start_dt : Int
  end_dt : Int
  repo_count : Int
deriving DecidableEq, Repr

/-- Mirrors `OrgDetail` (src/stats.rs). -/
structure OrgDetail where
  org_name : String
  repos : List RepoStats
deriving DecidableEq, Repr

/-- Mirrors `RepoContributor` (src/stats.rs). -/
structure RepoContributor where
  username : String
  commits : Int
  lines : Int
  prs : Int
deriving DecidableEq, Repr

/-- Mirrors `RepoDetail` (src/stats.rs). -/
structure RepoDetail where
  org_name : String
  repo_name : String
  contributors : List RepoContributor
deriving DecidableEq, Repr

/-- Mirrors `ContributorRepo` (src/stats.rs). -/
structure ContributorRepo where
  org_name : String
  repo_name : String
  commits : Int
  lines : Int
  prs : Int
deriving DecidableEq, Repr

/-- Mirrors `ContributorDetail` (src/stats.rs). -/
structure ContributorDetail where
  username : String
  contributions : List ContributorRepo
deriving DecidableEq, Repr

/-- Mirrors `ViewData` (src/stats.rs lines 76-86). -/
inductive ViewData where
  | Orgs (orgs : List OrgStats)
  | Repos (repos : List RepoStats)
  | Contributors (contributors : List ContributorStats)
  | OrgDetail (detail : OrgDetail)
  | RepoDetail (detail : RepoDetail)
  | ContributorDetail (detail : ContributorDetail)
  | Loading
  | Error (msg : String)
deriving DecidableEq, Repr

/-- Mirrors `App` (src/app/state.rs lines 13-31). -/
structure AppState where
  current_view : View
  current_scrape : Option Int
  scrapes : List ScrapeInfo
  data : ViewData
  sort_order : SortOrder
  sort_field : SortField
  selected_index : Nat
  scrape_selected_index : Nat
  should_quit : Bool
  is_scraping : Bool
  scraping_error : Option String
  pending_view_switch : Option View
  start_scraping_requested : Bool
  drill_down_requested : Bool
  navigate_back_requested : Bool
  view_history : List (View × String)
deriving DecidableEq, Repr

/-- The persistence engine's query surface as used by the dashboard
(src/db.rs): each query is a pure function of its natural-key arguments.
`list_all` returns the scrape list ordered by `start_dt DESC` (latest
first), which is what `scrapes.first()` relies on. -/
structure Db where
  list_all : List ScrapeInfo
  org_stats : Int → List OrgStats
  repo_stats : Int → List RepoStats
  contributor_stats : Int → List ContributorStats
  org_detail : Int → String → OrgDetail
  repo_detail : Int → String → String → RepoDetail
  contributor_detail : Int → String → ContributorDetail

/-! ### Stable sorting (Rust `Vec::sort_by` is a stable sort; we model it with
`List.insertionSort`, which is stable for a `≤`-style comparator) -/

/-- Comparator `a.key.cmp(&b.key)` for `Ordering::is_le`-style insertion:
ascending by key. -/
def ascKey {α : Type} {κ : Type} [LinearOrder κ] (k : α → κ) (a b : α) : Prop :=
  k a ≤ k b

/-- Comparator `b.key.cmp(&a.key)`: descending by key. -/
def descKey {α : Type} {κ : Type} [LinearOrder κ] (k : α → κ) (a b : α) : Prop :=
  k b ≤ k a

instance ascKeyDecidable {α κ : Type} [LinearOrder κ] (k : α → κ) :
    DecidableRel (ascKey k) :=
  fun a b => inferInstanceAs (Decidable (k a ≤ k b))

instance descKeyDecidable {α κ : Type} [LinearOrder κ] (k : α → κ) :
    DecidableRel (descKey k) :=
  fun a b => inferInstanceAs (Decidable (k b ≤ k a))

instance ascKeyTotal {α κ : Type} [LinearOrder κ] (k : α → κ) : IsTotal α (ascKey k) :=
  ⟨fun a b => le_total (k a) (k b)⟩

instance ascKeyTrans {α κ : Type} [LinearOrder κ] (k : α → κ) : IsTrans α (ascKey k) :=
  ⟨fun _ _ _ h1 h2 => le_trans h1 h2⟩

instance descKeyTotal {α κ : Type} [LinearOrder κ] (k : α → κ) : IsTotal α (descKey k) :=
  ⟨fun a b => le_total (k b) (k a)⟩

instance descKeyTrans {α κ : Type} [LinearOrder κ] (k : α → κ) : IsTrans α (descKey k) :=
  ⟨fun _ _ _ h1 h2 => le_trans h2 h1⟩

/-- One `sort_by` call with a `match sort_order` comparator on key `k`, as in
every `sort_*_static` arm of src/app/state.rs. -/
def sortByKey {α κ : Type} [LinearOrder κ] (k : α → κ) (o : SortOrder) (l : List α) :
    List α :=
  match o with
  | SortOrder.Ascending => List.insertionSort (ascKey k) l
  | SortOrder.Descending => List.insertionSort (descKey k) l

/-- Rows sorted according to the comparator `sortByKey` uses for `o`. -/
def sortedByKey {α κ : Type} [LinearOrder κ] (k : α → κ) (o : SortOrder) (l : List α) :
    Prop :=
  match o with
  | SortOrder.Ascending => List.Sorted (ascKey k) l
  | SortOrder.Descending => List.Sorted (descKey k) l

/-- Mirrors the `match` in `toggle_sort_order` (src/app/state.rs lines
134-140). -/
def flipOrder : SortOrder → SortOrder
  | SortOrder.Ascending => SortOrder.Descending
  | SortOrder.Descending => SortOrder.Ascending

/-- Mirrors `App::sort_orgs_static` (src/app/state.rs lines 293-327); the
`Prs` arm falls back to commits, per the source comment. -/
def sort_orgs_static (orgs : List OrgStats) (f : SortField) (o : SortOrder) :
    List OrgStats :=
  match f with
  | SortField.Name => sortByKey (fun r => r.name) o orgs
  | SortField.Commits => sortByKey (fun r => r.total_commits) o orgs
  | SortField.Lines => sortByKey (fun r => r.total_lines) o orgs
  | SortField.Repos => sortByKey (fun r => r.repo_count) o orgs
  | SortField.Prs => sortByKey (fun r => r.total_commits) o orgs

/-- Mirrors `App::sort_repos_static`; the `Repos` arm falls back to commits. -/
def sort_repos_static (repos : List RepoStats) (f : SortField) (o : SortOrder) :
    List RepoStats :=
  match f with
  | SortField.Name => sortByKey (fun r => r.repo_name) o repos
  | SortField.Commits => sortByKey (fun r => r.commits) o repos
  | SortField.Lines => sortByKey (fun r => r.lines) o repos
  | SortField.Prs => sortByKey (fun r => r.prs) o repos
  | SortField.Repos => sortByKey (fun r => r.commits) o repos

/-- Mirrors `App::sort_contributors_static`; the `Prs` arm falls back to
commits. -/
def sort_contributors_static (cs : List ContributorStats) (f : SortField) (o : SortOrder) :
    List ContributorStats :=
  match f with
  | SortField.Name => sortByKey (fun r => r.username) o cs
  | SortField.Commits => sortByKey (fun r => r.total_commits) o cs
  | SortField.Lines => sortByKey (fun r => r.total_lines) o cs
  | SortField.Repos => sortByKey (fun r => r.repo_count) o cs
  | SortField.Prs => sortByKey (fun r => r.total_commits) o cs

/-- Mirrors `App::sort_repo_contributors_static`; the `Repos` arm falls back
to commits. -/
def sort_repo_contributors_static (cs : List RepoContributor) (f : SortField)
    (o : SortOrder) : List RepoContributor :=
  match f with
  | SortField.Name => sortByKey (fun r => r.username) o cs
  | SortField.Commits => sortByKey (fun r => r.commits) o cs
  | SortField.Lines => sortByKey (fun r => r.lines) o cs
  | SortField.Prs => sortByKey (fun r => r.prs) o cs
  | SortField.Repos => sortByKey (fun r => r.commits) o cs

/-- Mirrors `App::sort_contributor_repos_static`; the `Repos` arm sorts by
repo name, per the source comment. -/
def sort_contributor_repos_static (cs : List ContributorRepo) (f : SortField)
    (o : SortOrder) : List ContributorRepo :=
  match f with
  | SortField.Name => sortByKey (fun r => r.repo_name) o cs
  | SortField.Commits => sortByKey (fun r => r.commits) o cs
  | SortField.Lines => sortByKey (fun r => r.lines) o cs
  | SortField.Prs => sortByKey (fun r => r.prs) o cs
  | SortField.Repos => sortByKey (fun r => r.repo_name) o cs

/-- The data transformation of `App::apply_sort` (src/app/state.rs lines
152-179). -/
def sortViewData (f : SortField) (o : SortOrder) : ViewData → ViewData
  | ViewData.Orgs orgs => ViewData.Orgs (sort_orgs_static orgs f o)
  | ViewData.Repos repos => ViewData.Repos (sort_repos_static repos f o)
  | ViewData.Contributors cs => ViewData.Contributors (sort_contributors_static cs f o)
  | ViewData.OrgDetail d => ViewData.OrgDetail { d with repos := sort_repos_static d.repos f o }
  | ViewData.RepoDetail d =>
      ViewData.RepoDetail { d with contributors := sort_repo_contributors_static d.contributors f o }
  | ViewData.ContributorDetail d =>
      ViewData.ContributorDetail { d with contributions := sort_contributor_repos_static d.contributions f o }
  | ViewData.Loading => ViewData.Loading
  | ViewData.Error msg => ViewData.Error msg

/-- Mirrors `App::apply_sort`: re-sorts the current view's rows and resets
the selection to the top. -/
def apply_sort (app : AppState) : AppState :=
  { app with data := sortViewData app.sort_field app.sort_order app.data
             selected_index := 0 }

/-- Mirrors `App::toggle_sort_order` (src/app/state.rs lines 134-140). -/
def toggle_sort_order (app : AppState) : AppState :=
  apply_sort { app with sort_order := flipOrder app.sort_order }

/-- Mirrors `App::set_sort_field` (src/app/state.rs lines 142-150): a new
field resets the order to Descending, the active field toggles the order
(which already re-sorts once); both branches then call `apply_sort`. -/
def set_sort_field (field : SortField) (app : AppState) : AppState :=
  let app1 :=
    if app.sort_field ≠ field then
      { app with sort_field := field, sort_order := SortOrder.Descending }
    else
      toggle_sort_order app
  apply_sort app1

/-- Mirrors `App::get_item_count` (src/app/state.rs lines 215-225). -/
def get_item_count (app : AppState) : Nat :=
  match app.data with
  | ViewData.Orgs orgs => orgs.length
  | ViewData.Repos repos => repos.length
  | ViewData.Contributors cs => cs.length
  | ViewData.OrgDetail d => d.repos.length
  | ViewData.RepoDetail d => d.contributors.length
  | ViewData.ContributorDetail d => d.contributions.length
  | ViewData.Loading => 0
  | ViewData.Error _ => 0

/-! ### Collection-request handling (src/app/state.rs lines 473-533,
src/app/events.rs lines 93-98) -/

/-- Mirrors the `KeyCode::Char('S')` arm of `handle_key_event`: the request
flag is only set when no scrape is in progress. -/
def handle_key_S (app : AppState) : AppState :=
  if app.is_scraping then app else { app with start_scraping_requested := true }

/-- Mirrors `App::start_scraping`. -/
def start_scraping (app : AppState) : AppState :=
  { app with is_scraping := true, scraping_error := none, start_scraping_requested := false }

/-- Mirrors `App::finish_scraping_success`. -/
def finish_scraping_success (app : AppState) : AppState :=
  { app with is_scraping := false, scraping_error := none }

/-- Mirrors `App::finish_scraping_error`. -/
def finish_scraping_error (app : AppState) (error : String) : AppState :=
  { app with is_scraping := false, scraping_error := some error }

/-- Mirrors `App::refresh_current_view_data` (src/app/state.rs lines
227-259): reloads the data of the *current* view from the store (detail views
and the scrape picker load nothing), then applies the current sort. -/
def refresh_current_view_data (db : Db) (app : AppState) : AppState :=
  match app.current_scrape with
  | some scrape_id =>
      let app1 :=
        match app.current_view with
        | View.Org => { app with data := ViewData.Orgs (db.org_stats scrape_id) }
        | View.Repo => { app with data := ViewData.Repos (db.repo_stats scrape_id) }
        | View.Contributors =>
            { app with data := ViewData.Contributors (db.contributor_stats scrape_id) }
        | _ => app
      apply_sort app1
  | none => { app with data := ViewData.Error "No scrape selected" }

/-- Mirrors `App::refresh_after_scrape` (src/app/state.rs lines 501-514):
reload the scrape list, select its first entry (the latest scrape) if any,
and reload the current view's data. -/
def refresh_after_scrape (db : Db) (app : AppState) : AppState :=
  let app1 := { app with scrapes := db.list_all }
  match app1.scrapes.head? with
  | some latest => refresh_current_view_data db { app1 with current_scrape := some latest.id }
  | none => app1

/-- Mirrors `App::handle_scraping_request` (src/app/state.rs lines 516-533);
the outcome of the blocking `scraper::run_scrape()` call is the `res`
argument. -/
def handle_scraping_request (db : Db) (res : Except String Unit) (app : AppState) :
    AppState :=
  if app.start_scraping_requested then
    match res with
    | Except.ok _ => refresh_after_scrape db (finish_scraping_success (start_scraping app))
    | Except.error e => finish_scraping_error (start_scraping app) ("Scrape failed: " ++ e)
  else app

/-! ### Drill-down (src/app/state.rs lines 547-665) -/

/-- Mirrors `DrillType` (src/app/state.rs lines 6-11). -/
inductive DrillType where
  | Org (org_name : String)
  | Repo (org_name : String) (repo_name : String)
  | Contributor (username : String)
deriving DecidableEq

/-- Mirrors `App::drill_into_org`. -/
def drill_into_org (db : Db) (scrape_id : Int) (org_name : String) (app : AppState) :
    AppState :=
  apply_sort { app with data := ViewData.OrgDetail (db.org_detail scrape_id org_name)
                        current_view := View.OrgDetail
                        selected_index := 0 }

/-- Mirrors `App::drill_into_repo`. -/
def drill_into_repo (db : Db) (scrape_id : Int) (org_name repo_name : String)
    (app : AppState) : AppState :=
  apply_sort { app with data := ViewData.RepoDetail (db.repo_detail scrape_id org_name repo_name)
                        current_view := View.RepoDetail
                        selected_index := 0 }

/-- Mirrors `App::drill_into_contributor`. -/
def drill_into_contributor (db : Db) (scrape_id : Int) (username : String)
    (app : AppState) : AppState :=
  apply_sort { app with data := ViewData.ContributorDetail (db.contributor_detail scrape_id username)
                        current_view := View.ContributorDetail
                        selected_index := 0 }

/-- Mirrors `App::drill_down` (src/app/state.rs lines 548-602): refused while
scraping or with no selected scrape; the selected row is looked up with the
non-panicking `get`, and `Loading`, `Error` and `ContributorDetail` data
produce no drill info; otherwise the previous view and a context string are
pushed onto the history stack and the matching detail view is loaded. -/
def drill_down (db : Db) (app : AppState) : AppState :=
  if app.is_scraping then app
  else
    match app.current_scrape with
    | none => app
    | some scrape_id =>
        let drill_info : Option (View × String × DrillType) :=
          match app.data with
          | ViewData.Orgs orgs =>
              (orgs.get? app.selected_index).map
                (fun org => (app.current_view, org.name, DrillType.Org org.name))
          | ViewData.Repos repos =>
              (repos.get? app.selected_index).map
                (fun repo => (app.current_view, repo.org_name ++ "/" ++ repo.repo_name,
                  DrillType.Repo repo.org_name repo.repo_name))
          | ViewData.Contributors cs =>
              (cs.get? app.selected_index).map
                (fun c => (app.current_view, c.username, DrillType.Contributor c.username))
          | ViewData.OrgDetail d =>
              (d.repos.get? app.selected_index).map
                (fun repo => (app.current_view, d.org_name ++ "/" ++ repo.repo_name,
                  DrillType.Repo repo.org_name repo.repo_name))
          | ViewData.RepoDetail d =>
              (d.contributors.get? app.selected_index).map
                (fun c => (app.current_view, c.username, DrillType.Contributor c.username))
          | _ => none
        match drill_info with
        | none => app
        | some (v, context, dt) =>
            let app1 := { app with view_history := app.view_history ++ [(v, context)] }
            match dt with
            | DrillType.Org n => drill_into_org db scrape_id n app1
            | DrillType.Repo o r => drill_into_repo db scrape_id o r app1
            | DrillType.Contributor u => drill_into_contributor db scrape_id u app1

/-- Data variants from which `drill_down` computes no drill info
(`Loading`, `Error`, `ContributorDetail`: the `_ => None` arm). -/
def dataBlocksDrill : ViewData → Bool
  | ViewData.Loading => true
  | ViewData.Error _ => true
  | ViewData.ContributorDetail _ => true
  | _ => false

/-! ### Sorting lemmas lifted to the row types of each view -/

/-- Rows sorted the way `sort_orgs_static f o` sorts them. -/
def orgsSortedBy (f : SortField) (o : SortOrder) (l : List OrgStats) : Prop :=
  match f with
  | SortField.Name => sortedByKey (fun r => r.name) o l
  | SortField.Commits => sortedByKey (fun r => r.total_commits) o l
  | SortField.Lines => sortedByKey (fun r => r.total_lines) o l
  | SortField.Repos => sortedByKey (fun r => r.repo_count) o l
  | SortField.Prs => sortedByKey (fun r => r.total_commits) o l

/-- Rows sorted the way `sort_repos_static f o` sorts them. -/
def reposSortedBy (f : SortField) (o : SortOrder) (l : List RepoStats) : Prop :=
  match f with
  | SortField.Name => sortedByKey (fun r => r.repo_name) o l
  | SortField.Commits => sortedByKey (fun r => r.commits) o l
  | SortField.Lines => sortedByKey (fun r => r.lines) o l
  | SortField.Prs => sortedByKey (fun r => r.prs) o l
  | SortField.Repos => sortedByKey (fun r => r.commits) o l

/-- Rows sorted the way `sort_contributors_static f o` sorts them. -/
def contributorsSortedBy (f : SortField) (o : SortOrder) (l : List ContributorStats) :
    Prop :=
  match f with
  | SortField.Name => sortedByKey (fun r => r.username) o l
  | SortField.Commits => sortedByKey (fun r => r.total_commits) o l
  | SortField.Lines => sortedByKey (fun r => r.total_lines) o l
  | SortField.Repos => sortedByKey (fun r => r.repo_count) o l
  | SortField.Prs => sortedByKey (fun r => r.total_commits) o l

/-- Rows sorted the way `sort_repo_contributors_static f o` sorts them. -/
def repoContributorsSortedBy (f : SortField) (o : SortOrder) (l : List RepoContributor) :
    Prop :=
  match f with
  | SortField.Name => sortedByKey (fun r => r.username) o l
  | SortField.Commits => sortedByKey (fun r => r.commits) o l
  | SortField.Lines => sortedByKey (fun r => r.lines) o l
  | SortField.Prs => sortedByKey (fun r => r.prs) o l
  | SortField.Repos => sortedByKey (fun r => r.commits) o l

/-- Rows sorted the way `sort_contributor_repos_static f o` sorts them. -/
def contributorReposSortedBy (f : SortField) (o : SortOrder) (l : List ContributorRepo) :
    Prop :=
  match f with
  | SortField.Name => sortedByKey (fun r => r.repo_name) o l
  | SortField.Commits => sortedByKey (fun r => r.commits) o l
  | SortField.Lines => sortedByKey (fun r => r.lines) o l
  | SortField.Prs => sortedByKey (fun r => r.prs) o l
  | SortField.Repos => sortedByKey (fun r => r.repo_name) o l

/-- View data whose rows are sorted the way `sortViewData f o` leaves them
(`Loading` and `Error` carry no rows). -/
def viewDataSortedBy (f : SortField) (o : SortOrder) : ViewData → Prop
  | ViewData.Orgs l => orgsSortedBy f o l
  | ViewData.Repos l => reposSortedBy f o l
  | ViewData.Contributors l => contributorsSortedBy f o l
  | ViewData.OrgDetail d => reposSortedBy f o d.repos
  | ViewData.RepoDetail d => repoContributorsSortedBy f o d.contributors
  | ViewData.ContributorDetail d => contributorReposSortedBy f o d.contributions
  | ViewData.Loading => True
  | ViewData.Error _ => True

/-! ### Concrete inputs used by witnesses and counterexamples -/

/-- Scenario commits from the spec: alice, alice, bob. -/
def C1commits : List RepoCommit := [⟨some "alice"⟩, ⟨some "alice"⟩, ⟨some "bob"⟩]

/-- Ignore pattern matching exactly `"bob"`. -/
def C1ignore : String → Bool := fun s => s == "bob"

/-- Scenario pull request from the spec: carol, additions 10, deletions 5. -/
def C2pr : PullRequest := ⟨some "carol", some 0, some 10, some 5⟩

/-- An ignore pattern that matches nothing. -/
def noIgnore : String → Bool := fun _ => false

/-- A commit whose author the ignore pattern matches. -/
def C3commit : RepoCommit := ⟨some "bot"⟩

/-- Ignore pattern matching exactly `"bot"`. -/
def C3ignore : String → Bool := fun s => s == "bot"

/-- A merged in-window pull request. -/
def C3pr : PullRequest := ⟨some "carol", some 3, some 10, some 5⟩

/-- An aggregator state reached by one commit and one pull request. -/
def C4state : TempRepoScrape :=
  process_pr (process_commit TempRepoScrape.new ⟨some "alice"⟩ noIgnore)
    ⟨some "alice", some 0, some 3, some 4⟩ noIgnore

/-- A pull request merged before the window start (merged_at 0). -/
def C5prOld : PullRequest := ⟨some "dave", some 0, some 1, some 1⟩

/-- A pull request merged inside the window (merged_at 10). -/
def C5prNew : PullRequest := ⟨some "carol", some 10, some 10, some 5⟩

/-- A scrape row for the demo store. -/
def demoScrape : ScrapeInfo := ⟨2, 0, 604800, 1⟩

/-- A concrete store whose scrape list holds one entry and whose rollup
queries return empty lists. -/
def demoDb : Db :=
  { list_all := [demoScrape]
    org_stats := fun _ => []
    repo_stats := fun _ => []
    contributor_stats := fun _ => []
    org_detail := fun _ n => ⟨n, []⟩
    repo_detail := fun _ o r => ⟨o, r, []⟩
    contributor_detail := fun _ u => ⟨u, []⟩ }

/-- A dashboard state template for concrete scenarios. -/
def baseApp : AppState :=
  { current_view := View.Org
    current_scrape := some 1
    scrapes := []
    data := ViewData.Loading
    sort_order := SortOrder.Descending
    sort_field := SortField.Commits
    selected_index := 0
    scrape_selected_index := 0
    should_quit := false
    is_scraping := false
    scraping_error := none
    pending_view_switch := none
    start_scraping_requested := false
    drill_down_requested := false
    navigate_back_requested := false
    view_history := [] }

/-- A state on the Repository List view with a pending collection request. -/
def C6app : AppState :=
  { baseApp with
    current_view := View.Repo
    data := ViewData.Repos []
    start_scraping_requested := true }

/-- A configuration whose lookback is 30 days. -/
def C7cfg : AppConfig :=
  { organizations := []
    days := 30
    include_private := true
    rate_limit_delay_ms := 500
    ignored_org_pattern := ""
    ignored_user_patterns := ""
    ignored_repo_patterns := "" }

/-- A state with a loaded (empty) Organization List, sorted by Commits. -/
def C8app : AppState := { baseApp with data := ViewData.Orgs [] }

/-- Organization row with 1 commit. -/
def C9org1 : OrgStats := ⟨"a", 1, 0, 0, 0⟩

/-- Organization row with 2 commits. -/
def C9org2 : OrgStats := ⟨"b", 2, 0, 0, 0⟩

/-- Rows NOT sorted by the active field/order (Commits, Descending). -/
def C9app : AppState := { baseApp with data := ViewData.Orgs [C9org1, C9org2] }

/-- Rows sorted by the active field/order (Commits, Descending). -/
def C9appSorted : AppState := { baseApp with data := ViewData.Orgs [C9org2, C9org1] }

/-- A state whose view data is still Loading. -/
def C10app : AppState := { baseApp with data := ViewData.Loading }

/-! ### Lemmas about the contributor map -/

theorem lookupContributor_updateContributor (key u : String)
    (f : TempContributorData → TempContributorData) (init : TempContributorData) :
    ∀ m, lookupContributor (updateContributor key f init m) u =
      if u = key then some (f ((lookupContributor m key).getD init)) else lookupContributor m u
  | [] => by
      by_cases h : u = key
      · simp [updateContributor, lookupContributor, h]
      · have h2 : ¬ key = u := fun hh => h hh.symm
        simp [updateContributor, lookupContributor, h, h2]
  | (k, v) :: rest => by
      by_cases hk : k = key
      · subst hk
        by_cases hu : u = k
        · subst hu
          simp [updateContributor, lookupContributor]
        · have h2 : ¬ k = u := fun hh => hu hh.symm
          simp [updateContributor, lookupContributor, hu, h2]
      · by_cases hku : k = u
        · subst hku
          have h2 : ¬ k = key := hk
          have h3 : ¬ k = key := hk
          simp [updateContributor, lookupContributor, hk]
        · simp [updateContributor, lookupContributor, hk, hku,
            lookupContributor_updateContributor key u f init rest]

theorem sumCommits_update_commit (key : String) (init : TempContributorData)
    (hinit : init.commits = 0) :
    ∀ m, sumCommits (updateContributor key (fun c => { c with commits := c.commits + 1 }) init m) =
      sumCommits m + 1
  | [] => by simp [updateContributor, sumCommits, hinit]
  | (k, v) :: rest => by
      by_cases hk : k = key
      · simp [updateContributor, sumCommits, hk]; omega
      · simp [updateContributor, sumCommits, hk]
        have := sumCommits_update_commit key init hinit rest
        simp [sumCommits] at this; omega

theorem sumLines_update_commit (key : String) (init : TempContributorData)
    (hinit : init.lines = 0) :
    ∀ m, sumLines (updateContributor key (fun c => { c with commits := c.commits + 1 }) init m) =
      sumLines m
  | [] => by simp [updateContributor, sumLines, hinit]
  | (k, v) :: rest => by
      by_cases hk : k = key
      · simp [updateContributor, sumLines, hk]
      · simp [updateContributor, sumLines, hk]
        have := sumLines_update_commit key init hinit rest
        simp [sumLines] at this; omega

theorem sumLines_update_lines (key : String) (n : Nat) (init : TempContributorData)
    (hinit : init.lines = 0) :
    ∀ m, sumLines (updateContributor key (fun c => { c with lines := c.lines + n }) init m) =
      sumLines m + n
  | [] => by simp [updateContributor, sumLines, hinit]
  | (k, v) :: rest => by
      by_cases hk : k = key
      · simp [updateContributor, sumLines, hk]; omega
      · simp [updateContributor, sumLines, hk]
        have := sumLines_update_lines key n init hinit rest
        simp [sumLines] at this; omega

theorem sumCommits_update_lines (key : String) (n : Nat) (init : TempContributorData)
    (hinit : init.commits = 0) :
    ∀ m, sumCommits (updateContributor key (fun c => { c with lines := c.lines + n }) init m) =
      sumCommits m
  | [] => by simp [updateContributor, sumCommits, hinit]
  | (k, v) :: rest => by
      by_cases hk : k = key
      · simp [updateContributor, sumCommits, hk]
      · simp [updateContributor, sumCommits, hk]
        have := sumCommits_update_lines key n init hinit rest
        simp [sumCommits] at this; omega

/-! ### One-step behaviour of the aggregator -/

theorem process_commit_ignored (s : TempRepoScrape) (c : RepoCommit) (ignore : String → Bool)
    (h : ignore (resolvedCommitAuthor c) = true) : process_commit s c ignore = s := by
  simp [process_commit, h]

theorem process_pr_ignored (s : TempRepoScrape) (p : PullRequest) (ignore : String → Bool)
    (h : ignore (resolvedPrAuthor p) = true) : process_pr s p ignore = s := by
  simp [process_pr, h]

theorem contributorCommits_process_commit (s : TempRepoScrape) (c : RepoCommit)
    (ignore : String → Bool) (u : String) (h : ignore (resolvedCommitAuthor c) = false) :
    contributorCommits (process_commit s c ignore) u =
      if u = resolvedCommitAuthor c then contributorCommits s u + 1
      else contributorCommits s u := by
  unfold process_commit contributorCommits
  simp only [h, Bool.false_eq_true, if_false]
  rw [lookupContributor_updateContributor]
  by_cases hu : u = resolvedCommitAuthor c
  · cases hl : lookupContributor s.contributors (resolvedCommitAuthor c) <;>
      simp [hu, hl]
  · simp [hu]

theorem contributorCommits_process_pr (s : TempRepoScrape) (p : PullRequest)
    (ignore : String → Bool) (u : String) :
    contributorCommits (process_pr s p ignore) u = contributorCommits s u := by
  by_cases h : ignore (resolvedPrAuthor p) = true
  · rw [process_pr_ignored s p ignore h]
  · have h' : ignore (resolvedPrAuthor p) = false := by
      cases hb : ignore (resolvedPrAuthor p)
      · rfl
      · exact absurd hb h
    unfold process_pr contributorCommits
    simp only [h', Bool.false_eq_true, if_false]
    rw [lookupContributor_updateContributor]
    by_cases hu : u = resolvedPrAuthor p
    · cases hl : lookupContributor s.contributors (resolvedPrAuthor p) <;>
        simp [hu, hl]
    · simp [hu]

theorem contributorLines_process_pr (s : TempRepoScrape) (p : PullRequest)
    (ignore : String → Bool) (u : String) (h : ignore (resolvedPrAuthor p) = false) :
    contributorLines (process_pr s p ignore) u =
      if u = resolvedPrAuthor p then contributorLines s u + prLineCount p
      else contributorLines s u := by
  unfold process_pr contributorLines
  simp only [h, Bool.false_eq_true, if_false]
  rw [lookupContributor_updateContributor]
  by_cases hu : u = resolvedPrAuthor p
  · cases hl : lookupContributor s.contributors (resolvedPrAuthor p) <;>
      simp [hu, hl]
  · simp [hu]

theorem totals_process_pr (s : TempRepoScrape) (p : PullRequest) (ignore : String → Bool)
    (h : ignore (resolvedPrAuthor p) = false) :
    (process_pr s p ignore).total_lines = s.total_lines + prLineCount p ∧
    (process_pr s p ignore).total_prs = s.total_prs + 1 ∧
    (process_pr s p ignore).total_commits = s.total_commits := by
  simp [process_pr, h]

/-! ### Folding commit lists -/

theorem total_commits_foldl (ignore : String → Bool) :
    ∀ (commits : List RepoCommit) (s : TempRepoScrape),
    (commits.foldl (fun s c => process_commit s c ignore) s).total_commits =
      s.total_commits + (commits.filter (fun c => ! ignore (resolvedCommitAuthor c))).length
  | [], s => by simp
  | c :: cs, s => by
      simp only [List.foldl_cons]
      rw [total_commits_foldl ignore cs]
      by_cases h : ignore (resolvedCommitAuthor c) = true
      · rw [process_commit_ignored s c ignore h]
        simp [List.filter_cons, h]
      · have h' : ignore (resolvedCommitAuthor c) = false := by
          cases hb : ignore (resolvedCommitAuthor c)
          · rfl
          · exact absurd hb h
        have : (process_commit s c ignore).total_commits = s.total_commits + 1 := by
          simp [process_commit, h']
        rw [this]
        simp [List.filter_cons, h']
        omega

theorem contributorCommits_foldl (ignore : String → Bool) (u : String)
    (hu : ignore u = false) :
    ∀ (commits : List RepoCommit) (s : TempRepoScrape),
    contributorCommits (commits.foldl (fun s c => process_commit s c ignore) s) u =
      contributorCommits s u + (commits.filter (fun c => resolvedCommitAuthor c == u)).length
  | [], s => by simp
  | c :: cs, s => by
      simp only [List.foldl_cons]
      rw [contributorCommits_foldl ignore u hu cs]
      by_cases ha : resolvedCommitAuthor c = u
      · have hig : ignore (resolvedCommitAuthor c) = false := by rw [ha]; exact hu
        rw [contributorCommits_process_commit s c ignore u hig, if_pos ha.symm]
        simp [List.filter_cons, ha]
        omega
      · have hne : ¬ u = resolvedCommitAuthor c := fun hh => ha hh.symm
        by_cases hig : ignore (resolvedCommitAuthor c) = true
        · rw [process_commit_ignored s c ignore hig]
          simp [List.filter_cons, ha]
        · have hig' : ignore (resolvedCommitAuthor c) = false := by
            cases hb : ignore (resolvedCommitAuthor c)
            · rfl
            · exact absurd hb hig
          rw [contributorCommits_process_commit s c ignore u hig']
          simp [List.filter_cons, ha, hne]

theorem sums_process_commit (s : TempRepoScrape) (c : RepoCommit) (ignore : String → Bool) :
    sumCommits (process_commit s c ignore).contributors =
      sumCommits s.contributors + ((process_commit s c ignore).total_commits - s.total_commits) ∧
    sumLines (process_commit s c ignore).contributors = sumLines s.contributors := by
  by_cases h : ignore (resolvedCommitAuthor c) = true
  · rw [process_commit_ignored s c ignore h]
    simp
  · have h' : ignore (resolvedCommitAuthor c) = false := by
      cases hb : ignore (resolvedCommitAuthor c)
      · rfl
      · exact absurd hb h
    simp only [process_commit, h', Bool.false_eq_true, if_false]
    constructor
    · rw [sumCommits_update_commit _ _ rfl]
      simp
    · rw [sumLines_update_commit _ _ rfl]

theorem sums_process_pr (s : TempRepoScrape) (p : PullRequest) (ignore : String → Bool) :
    sumLines (process_pr s p ignore).contributors =
      sumLines s.contributors + ((process_pr s p ignore).total_lines - s.total_lines) ∧
    sumCommits (process_pr s p ignore).contributors = sumCommits s.contributors := by
  by_cases h : ignore (resolvedPrAuthor p) = true
  · rw [process_pr_ignored s p ignore h]
    simp
  · have h' : ignore (resolvedPrAuthor p) = false := by
      cases hb : ignore (resolvedPrAuthor p)
      · rfl
      · exact absurd hb h
    simp only [process_pr, h', Bool.false_eq_true, if_false]
    constructor
    · rw [sumLines_update_lines _ _ _ rfl]
      simp
    · rw [sumCommits_update_lines _ _ _ rfl]

theorem aggReachable_invariant (ignore : String → Bool) (s : TempRepoScrape)
    (h : AggReachable ignore s) :
    s.total_commits = sumCommits s.contributors ∧ s.total_lines = sumLines s.contributors := by
  induction h with
  | init => simp [TempRepoScrape.new, sumCommits, sumLines]
  | commit s c _ ih =>
      have hstep := sums_process_commit s c ignore
      by_cases hig : ignore (resolvedCommitAuthor c) = true
      · rw [process_commit_ignored s c ignore hig]
        exact ih
      · have h' : ignore (resolvedCommitAuthor c) = false := by
          cases hb : ignore (resolvedCommitAuthor c)
          · rfl
          · exact absurd hb hig
        have htc : (process_commit s c ignore).total_commits = s.total_commits + 1 := by
          simp [process_commit, h']
        have htl : (process_commit s c ignore).total_lines = s.total_lines := by
          simp [process_commit, h']
        refine ⟨?_, ?_⟩
        · rw [htc, hstep.1, htc, ih.1]
          omega
        · rw [htl, hstep.2, ih.2]
  | pr s p _ ih =>
      have hstep := sums_process_pr s p ignore
      by_cases hig : ignore (resolvedPrAuthor p) = true
      · rw [process_pr_ignored s p ignore hig]
        exact ih
      · have h' : ignore (resolvedPrAuthor p) = false := by
          cases hb : ignore (resolvedPrAuthor p)
          · rfl
          · exact absurd hb hig
        have htl : (process_pr s p ignore).total_lines = s.total_lines + prLineCount p := by
          simp [process_pr, h']
        have htc : (process_pr s p ignore).total_commits = s.total_commits := by
          simp [process_pr, h']
        refine ⟨?_, ?_⟩
        · rw [htc, hstep.2, ih.1]
        · rw [htl, hstep.1, htl, ih.2]
          omega

theorem aggReachable_foldl_commits (ignore : String → Bool) :
    ∀ (commits : List RepoCommit) (s : TempRepoScrape), AggReachable ignore s →
    AggReachable ignore (commits.foldl (fun s c => process_commit s c ignore) s)
  | [], s, h => h
  | c :: cs, s, h =>
      aggReachable_foldl_commits ignore cs _ (AggReachable.commit s c h)

theorem aggReachable_foldl_prs (ignore : String → Bool) :
    ∀ (prs : List PullRequest) (s : TempRepoScrape), AggReachable ignore s →
    AggReachable ignore (prs.foldl (fun s p => process_pr s p ignore) s)
  | [], s, h => h
  | p :: ps, s, h =>
      aggReachable_foldl_prs ignore ps _ (AggReachable.pr s p h)

/-! ### Sorting lemmas: idempotence and toggle-twice restoration -/

theorem sortByKey_self_sorted {α κ : Type} [LinearOrder κ] (k : α → κ) (o : SortOrder)
    (l : List α) : sortedByKey k o (sortByKey k o l) := by
  cases o
  · exact List.sorted_insertionSort _ l
  · exact List.sorted_insertionSort _ l

theorem sortByKey_of_sorted {α κ : Type} [LinearOrder κ] (k : α → κ) {o : SortOrder}
    {l : List α} (h : sortedByKey k o l) : sortByKey k o l = l := by
  cases o
  · exact List.Sorted.insertionSort_eq h
  · exact List.Sorted.insertionSort_eq h

theorem sortByKey_idem {α κ : Type} [LinearOrder κ] (k : α → κ) (o : SortOrder)
    (l : List α) : sortByKey k o (sortByKey k o l) = sortByKey k o l :=
  sortByKey_of_sorted k (sortByKey_self_sorted k o l)

theorem insertionSort_desc_orderedInsert_asc {α κ : Type} [LinearOrder κ] (k : α → κ)
    (a : α) : ∀ m : List α, (∀ x ∈ m, k x ≤ k a) →
      List.insertionSort (descKey k) (List.orderedInsert (ascKey k) a m) =
        a :: List.insertionSort (descKey k) m
  | [], _ => rfl
  | b :: m', h₂ => by
      by_cases hab : ascKey k a b
      · rw [List.orderedInsert_of_le _ _ hab]
        exact List.insertionSort_cons _ (fun y hy => h₂ y hy)
      · have hb : k b < k a := not_le.mp hab
        have ih := insertionSort_desc_orderedInsert_asc k a m'
          (fun x hx => h₂ x (List.mem_cons_of_mem b hx))
        simp only [List.orderedInsert, if_neg hab, List.insertionSort]
        rw [ih]
        simp only [List.orderedInsert]
        rw [if_neg (fun hle : descKey k b a => absurd hle (not_le.mpr hb))]

theorem insertionSort_asc_orderedInsert_desc {α κ : Type} [LinearOrder κ] (k : α → κ)
    (a : α) : ∀ m : List α, (∀ x ∈ m, k a ≤ k x) →
      List.insertionSort (ascKey k) (List.orderedInsert (descKey k) a m) =
        a :: List.insertionSort (ascKey k) m
  | [], _ => rfl
  | b :: m', h₂ => by
      by_cases hab : descKey k a b
      · rw [List.orderedInsert_of_le _ _ hab]
        exact List.insertionSort_cons _ (fun y hy => h₂ y hy)
      · have hb : k a < k b := not_le.mp hab
        have ih := insertionSort_asc_orderedInsert_desc k a m'
          (fun x hx => h₂ x (List.mem_cons_of_mem b hx))
        simp only [List.orderedInsert, if_neg hab, List.insertionSort]
        rw [ih]
        simp only [List.orderedInsert]
        rw [if_neg (fun hle : ascKey k b a => absurd hle (not_le.mpr hb))]

theorem sort_asc_then_desc {α κ : Type} [LinearOrder κ] (k : α → κ) :
    ∀ l : List α, List.Sorted (descKey k) l →
      List.insertionSort (descKey k) (List.insertionSort (ascKey k) l) = l
  | [], _ => rfl
  | a :: t, h => by
      have ht := List.Sorted.of_cons h
      have ha : ∀ x ∈ t, k x ≤ k a := fun x hx => List.rel_of_sorted_cons h x hx
      have ih := sort_asc_then_desc k t ht
      have hmax : ∀ x ∈ List.insertionSort (ascKey k) t, k x ≤ k a := fun x hx =>
        ha x ((List.mem_insertionSort _).mp hx)
      simp only [List.insertionSort]
      rw [insertionSort_desc_orderedInsert_asc k a _ hmax, ih]

theorem sort_desc_then_asc {α κ : Type} [LinearOrder κ] (k : α → κ) :
    ∀ l : List α, List.Sorted (ascKey k) l →
      List.insertionSort (ascKey k) (List.insertionSort (descKey k) l) = l
  | [], _ => rfl
  | a :: t, h => by
      have ht := List.Sorted.of_cons h
      have ha : ∀ x ∈ t, k a ≤ k x := fun x hx => List.rel_of_sorted_cons h x hx
      have ih := sort_desc_then_asc k t ht
      have hmin : ∀ x ∈ List.insertionSort (descKey k) t, k a ≤ k x := fun x hx =>
        ha x ((List.mem_insertionSort _).mp hx)
      simp only [List.insertionSort]
      rw [insertionSort_asc_orderedInsert_desc k a _ hmin, ih]

theorem sortByKey_toggle {α κ : Type} [LinearOrder κ] (k : α → κ) (o : SortOrder)
    (l : List α) (h : sortedByKey k o l) :
    sortByKey k o (sortByKey k (flipOrder o) l) = l := by
  cases o
  · exact sort_desc_then_asc k l h
  · exact sort_asc_then_desc k l h

theorem sort_orgs_static_idem (l : List OrgStats) (f : SortField) (o : SortOrder) :
    sort_orgs_static (sort_orgs_static l f o) f o = sort_orgs_static l f o := by
  cases f <;> exact sortByKey_idem _ o l

theorem sort_repos_static_idem (l : List RepoStats) (f : SortField) (o : SortOrder) :
    sort_repos_static (sort_repos_static l f o) f o = sort_repos_static l f o := by
  cases f <;> exact sortByKey_idem _ o l

theorem sort_contributors_static_idem (l : List ContributorStats) (f : SortField)
    (o : SortOrder) :
    sort_contributors_static (sort_contributors_static l f o) f o =
      sort_contributors_static l f o := by
  cases f <;> exact sortByKey_idem _ o l

theorem sort_repo_contributors_static_idem (l : List RepoContributor) (f : SortField)
    (o : SortOrder) :
    sort_repo_contributors_static (sort_repo_contributors_static l f o) f o =
      sort_repo_contributors_static l f o := by
  cases f <;> exact sortByKey_idem _ o l

theorem sort_contributor_repos_static_idem (l : List ContributorRepo) (f : SortField)
    (o : SortOrder) :
    sort_contributor_repos_static (sort_contributor_repos_static l f o) f o =
      sort_contributor_repos_static l f o := by
  cases f <;> exact sortByKey_idem _ o l

theorem sort_orgs_static_toggle (l : List OrgStats) (f : SortField) (o : SortOrder)
    (h : orgsSortedBy f o l) :
    sort_orgs_static (sort_orgs_static l f (flipOrder o)) f o = l := by
  cases f <;> exact sortByKey_toggle _ o l h

theorem sort_repos_static_toggle (l : List RepoStats) (f : SortField) (o : SortOrder)
    (h : reposSortedBy f o l) :
    sort_repos_static (sort_repos_static l f (flipOrder o)) f o = l := by
  cases f <;> exact sortByKey_toggle _ o l h

theorem sort_contributors_static_toggle (l : List ContributorStats) (f : SortField)
    (o : SortOrder) (h : contributorsSortedBy f o l) :
    sort_contributors_static (sort_contributors_static l f (flipOrder o)) f o = l := by
  cases f <;> exact sortByKey_toggle _ o l h

theorem sort_repo_contributors_static_toggle (l : List RepoContributor) (f : SortField)
    (o : SortOrder) (h : repoContributorsSortedBy f o l) :
    sort_repo_contributors_static (sort_repo_contributors_static l f (flipOrder o)) f o
      = l := by
  cases f <;> exact sortByKey_toggle _ o l h

theorem sort_contributor_repos_static_toggle (l : List ContributorRepo) (f : SortField)
    (o : SortOrder) (h : contributorReposSortedBy f o l) :
    sort_contributor_repos_static (sort_contributor_repos_static l f (flipOrder o)) f o
      = l := by
  cases f <;> exact sortByKey_toggle _ o l h

theorem sortViewData_idem (f : SortField) (o : SortOrder) (d : ViewData) :
    sortViewData f o (sortViewData f o d) = sortViewData f o d := by
  cases d with
  | Orgs l => simp [sortViewData, sort_orgs_static_idem]
  | Repos l => simp [sortViewData, sort_repos_static_idem]
  | Contributors l => simp [sortViewData, sort_contributors_static_idem]
  | OrgDetail d => simp [sortViewData, sort_repos_static_idem]
  | RepoDetail d => simp [sortViewData, sort_repo_contributors_static_idem]
  | ContributorDetail d => simp [sortViewData, sort_contributor_repos_static_idem]
  | Loading => rfl
  | Error msg => rfl

theorem sortViewData_toggle (f : SortField) (o : SortOrder) (d : ViewData)
    (h : viewDataSortedBy f o d) :
    sortViewData f o (sortViewData f (flipOrder o) d) = d := by
  cases d with
  | Orgs l => simp [sortViewData, sort_orgs_static_toggle l f o h]
  | Repos l => simp [sortViewData, sort_repos_static_toggle l f o h]
  | Contributors l => simp [sortViewData, sort_contributors_static_toggle l f o h]
  | OrgDetail d =>
      cases d with
      | mk org_name repos =>
          simp [sortViewData]
          exact sort_repos_static_toggle repos f o h
  | RepoDetail d =>
      cases d with
      | mk org_name repo_name contributors =>
          simp [sortViewData]
          exact sort_repo_contributors_static_toggle contributors f o h
  | ContributorDetail d =>
      cases d with
      | mk username contributions =>
          simp [sortViewData]
          exact sort_contributor_repos_static_toggle contributions f o h
  | Loading => rfl
  | Error msg => rfl

/-! ### Helper lemmas for the claim theorems -/

theorem selectPrs_eq_takeWhile (since : Int) :
    ∀ l : List PullRequest, selectPrs since l =
      (l.takeWhile (prNotBeforeWindow since)).filter (fun p => p.merged_at.isSome)
  | [] => rfl
  | d :: rest => by
      cases hm : d.merged_at with
      | none =>
          simp [selectPrs, hm, List.takeWhile_cons, prNotBeforeWindow, List.filter_cons]
          exact selectPrs_eq_takeWhile since rest
      | some dt =>
          by_cases hd : dt < since
          · simp [selectPrs, hm, hd, List.takeWhile_cons, prNotBeforeWindow]
          · simp [selectPrs, hm, hd, List.takeWhile_cons, prNotBeforeWindow,
              List.filter_cons, selectPrs_eq_takeWhile since rest]

theorem refresh_current_view_data_frame (db : Db) (app : AppState) :
    (refresh_current_view_data db app).scrapes = app.scrapes ∧
    (refresh_current_view_data db app).current_view = app.current_view ∧
    (refresh_current_view_data db app).current_scrape = app.current_scrape := by
  cases hcs : app.current_scrape with
  | none => simp [refresh_current_view_data, hcs]
  | some sid =>
      cases hv : app.current_view <;>
        simp [refresh_current_view_data, hcs, hv, apply_sort]

/-! ### Claim theorems -/

/-- Claim C1: after processing any sequence of commit records with any ignore
pattern from a fresh aggregator, the repository commit counter equals the
number of commits whose resolved author (login or the "anonymous" fallback)
is not ignored; each non-ignored author's per-contributor commit count equals
the number of that author's commits; and processing an ignored commit leaves
the aggregator state unchanged. -/
theorem C1_record_commit_counts (commits : List RepoCommit) (ignore : String → Bool)
    (u : String) (hu : ignore u = false) :
    (aggregateCommits commits ignore).total_commits =
        (commits.filter (fun c => ! ignore (resolvedCommitAuthor c))).length
    ∧ contributorCommits (aggregateCommits commits ignore) u =
        (commits.filter (fun c => resolvedCommitAuthor c == u)).length
    ∧ ∀ (s : TempRepoScrape) (c : RepoCommit),
        ignore (resolvedCommitAuthor c) = true → process_commit s c ignore = s := by
  refine ⟨?_, ?_, ?_⟩
  · rw [aggregateCommits, total_commits_foldl]
    simp [TempRepoScrape.new]
  · rw [aggregateCommits, contributorCommits_foldl ignore u hu]
    simp [TempRepoScrape.new, contributorCommits, lookupContributor]
  · exact fun s c h => process_commit_ignored s c ignore h

/-- Witness for C1 at the spec's scenario: commits alice, alice, bob with
ignore pattern "bob" yield 2 repository commits and 2 commits for alice. -/
theorem C1_record_commit_counts_witness :
    (aggregateCommits C1commits C1ignore).total_commits = 2 ∧
    contributorCommits (aggregateCommits C1commits C1ignore) "alice" = 2 := by
  have h := C1_record_commit_counts C1commits C1ignore "alice" rfl
  exact ⟨h.1.trans (by decide), h.2.1.trans (by decide)⟩

/-- Claim C2: processing a non-ignored pull request adds
additions + deletions (missing values as 0) to the repository line counter
and to the author's line counter, increments the repository PR counter by 1,
and leaves the repository commit counter and every contributor's commit count
unchanged; an ignored pull request changes nothing. -/
theorem C2_record_pull_request (s : TempRepoScrape) (p : PullRequest)
    (ignore : String → Bool) :
    (ignore (resolvedPrAuthor p) = false →
      (process_pr s p ignore).total_lines = s.total_lines + prLineCount p ∧
      contributorLines (process_pr s p ignore) (resolvedPrAuthor p) =
        contributorLines s (resolvedPrAuthor p) + prLineCount p ∧
      (process_pr s p ignore).total_prs = s.total_prs + 1 ∧
      (process_pr s p ignore).total_commits = s.total_commits ∧
      ∀ u, contributorCommits (process_pr s p ignore) u = contributorCommits s u)
    ∧ (ignore (resolvedPrAuthor p) = true → process_pr s p ignore = s) := by
  constructor
  · intro h
    refine ⟨(totals_process_pr s p ignore h).1, ?_, (totals_process_pr s p ignore h).2.1,
      (totals_process_pr s p ignore h).2.2, fun u => contributorCommits_process_pr s p ignore u⟩
    rw [contributorLines_process_pr s p ignore _ h, if_pos rfl]
  · exact fun h => process_pr_ignored s p ignore h

/-- Witness for C2 at the spec's scenario: carol's accepted PR with
additions 10 and deletions 5 adds 15 lines, one PR, and no commits. -/
theorem C2_record_pull_request_witness :
    (process_pr TempRepoScrape.new C2pr noIgnore).total_lines = 15 ∧
    contributorLines (process_pr TempRepoScrape.new C2pr noIgnore) "carol" = 15 ∧
    (process_pr TempRepoScrape.new C2pr noIgnore).total_prs = 1 ∧
    (process_pr TempRepoScrape.new C2pr noIgnore).total_commits = 0 := by
  have h := (C2_record_pull_request TempRepoScrape.new C2pr noIgnore).1 rfl
  exact ⟨h.1.trans (by decide), (h.2.1).trans (by decide), (h.2.2.1).trans (by decide),
    (h.2.2.2.1).trans (by decide)⟩

/-- Counterexample to C3 as stated: a repository whose only fetched commit
has an ignored author has zero accepted commits, yet a RepositorySnapshot row
IS written (with a zero commit counter), because the skip gate counts fetched
commits before ignore filtering. -/
theorem C3_counterexample :
    ([C3commit].filter (fun c => ! C3ignore (resolvedCommitAuthor c))).length = 0 ∧
    (processRepo C3ignore (FetchResult.ok [C3commit]) [C3pr]).isSome = true ∧
    (processRepo C3ignore (FetchResult.ok [C3commit]) [C3pr]).map
      (fun r => r.commits) = some 0 := by decide

/-- Claim C3 amended: a repository is skipped (no RepositorySnapshot row)
exactly when the commit fetch fails or returns zero commits, regardless of
its pull requests; when the fetch returns any commit at all — even if every
commit's author is ignored — a row is written. -/
theorem C3_zero_fetched_commits_skip (ignore : String → Bool) (prs : List PullRequest) :
    processRepo ignore (FetchResult.ok []) prs = none
    ∧ processRepo ignore FetchResult.err prs = none
    ∧ ∀ commits : List RepoCommit, commits ≠ [] →
        (processRepo ignore (FetchResult.ok commits) prs).isSome = true := by
  refine ⟨rfl, rfl, ?_⟩
  intro commits hne
  cases commits with
  | nil => exact absurd rfl hne
  | cons c cs => simp [processRepo]

/-- Witness for C3 (amended): an empty fetch yields no row; the single
ignored-author commit yields a row. -/
theorem C3_zero_fetched_commits_skip_witness :
    processRepo C3ignore (FetchResult.ok []) [C3pr] = none ∧
    (processRepo C3ignore (FetchResult.ok [C3commit]) [C3pr]).isSome = true :=
  ⟨(C3_zero_fetched_commits_skip C3ignore [C3pr]).1,
   (C3_zero_fetched_commits_skip C3ignore [C3pr]).2.2 [C3commit] (by decide)⟩

/-- Claim C4: in every aggregator state reachable from the initial empty
state by any sequence of commit/PR processing, the repository commit counter
equals the sum of per-contributor commit counters and the repository line
counter equals the sum of per-contributor line counters; consequently every
persisted RepositorySnapshot row satisfies the same equalities. -/
theorem C4_totals_eq_contributor_sums (ignore : String → Bool) (s : TempRepoScrape)
    (h : AggReachable ignore s) :
    (s.total_commits = sumCommits s.contributors ∧
     s.total_lines = sumLines s.contributors)
    ∧ ∀ (fetched : FetchResult (List RepoCommit)) (prs : List PullRequest)
        (row : RepoSnapshotRow), processRepo ignore fetched prs = some row →
        row.commits = sumCommits row.contributors ∧
        row.lines = sumLines row.contributors := by
  constructor
  · exact aggReachable_invariant ignore s h
  · intro fetched prs row hrow
    cases fetched with
    | err => simp [processRepo] at hrow
    | ok commits =>
        by_cases hlen : commits.length = 0
        · simp [processRepo, hlen] at hrow
        · simp only [processRepo, hlen, if_neg, if_false] at hrow
          have hreach : AggReachable ignore
              (prs.foldl (fun s p => process_pr s p ignore)
                (commits.foldl (fun s c => process_commit s c ignore) TempRepoScrape.new)) :=
            aggReachable_foldl_prs ignore prs _
              (aggReachable_foldl_commits ignore commits _ AggReachable.init)
          have hinv := aggReachable_invariant ignore _ hreach
          injection hrow with hrow
          subst hrow
          exact ⟨hinv.1, hinv.2⟩

/-- Witness for C4 at a concrete reachable state (one commit, one PR). -/
theorem C4_totals_eq_contributor_sums_witness :
    C4state.total_commits = sumCommits C4state.contributors ∧
    C4state.total_lines = sumLines C4state.contributors :=
  (C4_totals_eq_contributor_sums noIgnore C4state
    (AggReachable.pr _ _ (AggReachable.commit _ _ AggReachable.init))).1

/-- Counterexample to C5 as stated: with window start 5, the fetched page
holds a PR merged at 0 followed by a PR merged at 10; the in-window PR is
dropped because the scan RETURNS at the first PR merged before the start
instead of skipping it. -/
theorem C5_counterexample :
    (5 : Int) ≤ 10 ∧ C5prNew.merged_at = some 10 ∧
    C5prNew ∉ selectPrs 5 [C5prOld, C5prNew] := by decide

/-- Claim C5 amended: the PRs fed to the aggregator are the merged PRs of the
longest prefix of the fetched list containing no PR merged strictly before
the snapshot start: an unmerged PR is skipped, a PR merged at or after the
start is kept, and the first PR merged strictly before the start terminates
the scan, dropping it and everything after it. -/
theorem C5_pr_window_scan (since : Int) (l : List PullRequest) :
    selectPrs since l =
      (l.takeWhile (prNotBeforeWindow since)).filter (fun p => p.merged_at.isSome)
    ∧ (∀ (p : PullRequest) (rest : List PullRequest) (dt : Int),
        p.merged_at = some dt → dt < since → selectPrs since (p :: rest) = [])
    ∧ (∀ (p : PullRequest) (rest : List PullRequest),
        p.merged_at = none → selectPrs since (p :: rest) = selectPrs since rest)
    ∧ (∀ (p : PullRequest) (rest : List PullRequest) (dt : Int),
        p.merged_at = some dt → since ≤ dt →
        selectPrs since (p :: rest) = p :: selectPrs since rest) := by
  refine ⟨selectPrs_eq_takeWhile since l, ?_, ?_, ?_⟩
  · intro p rest dt hm hd
    simp [selectPrs, hm, hd]
  · intro p rest hm
    simp [selectPrs, hm]
  · intro p rest dt hm hd
    simp [selectPrs, hm, not_lt.mpr hd]

/-- Witness for C5 (amended): the in-window PR alone is kept; the
before-window PR alone ends the scan with nothing. -/
theorem C5_pr_window_scan_witness :
    selectPrs 5 [C5prNew] = [C5prNew] ∧ selectPrs 5 [C5prOld] = [] :=
  ⟨(C5_pr_window_scan 5 []).2.2.2 C5prNew [] 10 rfl (by decide),
   (C5_pr_window_scan 5 []).2.1 C5prOld [] 0 rfl (by decide)⟩

theorem refresh_after_scrape_frame (db : Db) (app : AppState) :
    (refresh_after_scrape db app).scrapes = db.list_all ∧
    (refresh_after_scrape db app).current_view = app.current_view ∧
    (∀ (s0 : ScrapeInfo) (rest : List ScrapeInfo), db.list_all = s0 :: rest →
      (refresh_after_scrape db app).current_scrape = some s0.id) := by
  cases hl : db.list_all with
  | nil =>
      refine ⟨?_, ?_, fun s0 rest heq => ?_⟩
      · simp [refresh_after_scrape, hl]
      · simp [refresh_after_scrape, hl]
      · exact List.noConfusion heq
  | cons s0' rest' =>
      have hframe := refresh_current_view_data_frame db
        { app with scrapes := db.list_all, current_scrape := some s0'.id }
      rw [hl] at hframe
      refine ⟨?_, ?_, fun s0 rest heq => ?_⟩
      · simp only [refresh_after_scrape, hl, List.head?_cons]
        exact hframe.1
      · simp only [refresh_after_scrape, hl, List.head?_cons]
        exact hframe.2.1
      · injection heq with h1 h2
        subst h1
        simp only [refresh_after_scrape, hl, List.head?_cons]
        exact hframe.2.2

/-- Counterexample to C6 as stated: after a successful collection run the
dashboard does NOT switch to the Organization List view — a run requested
from the Repository List stays on the Repository List (only the latest
snapshot is selected and the current view's data reloaded). -/
theorem C6_counterexample :
    C6app.start_scraping_requested = true ∧
    (handle_scraping_request demoDb (Except.ok ()) C6app).current_view = View.Repo ∧
    View.Repo ≠ View.Org := by decide

/-- Claim C6 amended: requesting a run while one is in progress is refused;
otherwise the request flag is set; starting the run sets the in-progress
flag and clears any prior error; on success the snapshot list is reloaded
and, when it is non-empty, its first (latest) snapshot becomes current
while the view itself is left unchanged (not switched to the Organization
List): the Organization/Repository/Contributor list views get their data
reloaded from the store for that snapshot and re-sorted, while the snapshot
picker and the detail views keep their previously loaded data (merely
re-sorted, not reloaded); when the reloaded snapshot list is empty, data
and snapshot selection are unchanged; on failure a "Scrape failed: ..."
string is recorded and view, data, snapshot selection and row selection
are unchanged. -/
theorem C6_collection_run_flow (db : Db) (app : AppState) (e : String) :
    (app.is_scraping = true → handle_key_S app = app)
    ∧ (app.is_scraping = false →
        (handle_key_S app).start_scraping_requested = true)
    ∧ ((start_scraping app).is_scraping = true ∧
       (start_scraping app).scraping_error = none)
    ∧ (app.start_scraping_requested = true →
        (handle_scraping_request db (Except.ok ()) app).scrapes = db.list_all
        ∧ (handle_scraping_request db (Except.ok ()) app).current_view = app.current_view
        ∧ (∀ (s0 : ScrapeInfo) (rest : List ScrapeInfo), db.list_all = s0 :: rest →
            (handle_scraping_request db (Except.ok ()) app).current_scrape = some s0.id
            ∧ (handle_scraping_request db (Except.ok ()) app).data =
                (match app.current_view with
                 | View.Org => sortViewData app.sort_field app.sort_order
                     (ViewData.Orgs (db.org_stats s0.id))
                 | View.Repo => sortViewData app.sort_field app.sort_order
                     (ViewData.Repos (db.repo_stats s0.id))
                 | View.Contributors => sortViewData app.sort_field app.sort_order
                     (ViewData.Contributors (db.contributor_stats s0.id))
                 | _ => sortViewData app.sort_field app.sort_order app.data))
        ∧ (db.list_all = [] →
            (handle_scraping_request db (Except.ok ()) app).data = app.data
            ∧ (handle_scraping_request db (Except.ok ()) app).current_scrape =
                app.current_scrape))
    ∧ (app.start_scraping_requested = true →
        (handle_scraping_request db (Except.error e) app).scraping_error =
          some ("Scrape failed: " ++ e)
        ∧ (handle_scraping_request db (Except.error e) app).is_scraping = false
        ∧ (handle_scraping_request db (Except.error e) app).current_view = app.current_view
        ∧ (handle_scraping_request db (Except.error e) app).data = app.data
        ∧ (handle_scraping_request db (Except.error e) app).current_scrape =
            app.current_scrape
        ∧ (handle_scraping_request db (Except.error e) app).selected_index =
            app.selected_index) := by
  refine ⟨?_, ?_, ⟨rfl, rfl⟩, ?_, ?_⟩
  · intro h
    simp [handle_key_S, h]
  · intro h
    simp [handle_key_S, h]
  · intro h
    have hfr := refresh_after_scrape_frame db (finish_scraping_success (start_scraping app))
    simp only [handle_scraping_request, h, if_true]
    refine ⟨hfr.1, hfr.2.1, ?_, ?_⟩
    · intro s0 rest hl
      refine ⟨hfr.2.2 s0 rest hl, ?_⟩
      cases hv : app.current_view <;>
        simp [refresh_after_scrape, hl, refresh_current_view_data, hv, apply_sort,
          finish_scraping_success, start_scraping]
    · intro hl
      constructor <;>
        simp [refresh_after_scrape, hl, finish_scraping_success, start_scraping]
  · intro h
    simp [handle_scraping_request, h, finish_scraping_error, start_scraping]

/-- Witness for C6 (amended): a successful run from the Repository List
reloads the scrape list, selects the latest snapshot and reloads the
Repository List data for it; a failed run records the error string. -/
theorem C6_collection_run_flow_witness :
    (handle_scraping_request demoDb (Except.ok ()) C6app).scrapes = demoDb.list_all ∧
    (handle_scraping_request demoDb (Except.ok ()) C6app).current_scrape =
      some demoScrape.id ∧
    (handle_scraping_request demoDb (Except.ok ()) C6app).data = ViewData.Repos [] ∧
    (handle_scraping_request demoDb (Except.error "boom") C6app).scraping_error =
      some "Scrape failed: boom" := by
  have h := C6_collection_run_flow demoDb C6app "boom"
  refine ⟨(h.2.2.2.1 rfl).1, ((h.2.2.2.1 rfl).2.2.1 demoScrape [] rfl).1, ?_, ?_⟩
  · exact (((h.2.2.2.1 rfl).2.2.1 demoScrape [] rfl).2).trans (by decide)
  · exact ((h.2.2.2.2 rfl).1).trans (by decide)

/-- Counterexample to C7 as stated: with a configured lookback of 30 days the
snapshot window start is NOT now minus 30 days — the code always subtracts 7
days, ignoring the configuration's days field. -/
theorem C7_counterexample :
    C7cfg.days = 30 ∧
    (scrapeWindow C7cfg 0 0).start_time ≠ 0 - durationDays C7cfg.days := by decide

/-- Claim C7 amended: every collection run creates exactly one Snapshot and
its window is [now − 7 days, now] for EVERY configuration — the configured
days value is ignored (the two clock reads are modelled separately, as in
the source). -/
theorem C7_window_always_seven_days (cfg cfg' : AppConfig) (now1 now2 : Int) :
    runScrapeSnapshots cfg now1 now2 = [scrapeWindow cfg now1 now2]
    ∧ (runScrapeSnapshots cfg now1 now2).length = 1
    ∧ (scrapeWindow cfg now1 now2).start_time = now1 - durationDays 7
    ∧ (scrapeWindow cfg now1 now2).end_time = now2
    ∧ scrapeWindow cfg now1 now2 = scrapeWindow cfg' now1 now2 :=
  ⟨rfl, rfl, rfl, rfl, rfl⟩

/-- Claim C8: selecting the already-active sort field flips the sort order,
selecting a different field resets the order to Descending; in both cases
the field is set, the selection index is reset to 0, and the current view's
rows end up sorted by the new field and order. -/
theorem C8_set_sort_field (app : AppState) (f : SortField) :
    (app.sort_field = f →
      (set_sort_field f app).sort_order = flipOrder app.sort_order)
    ∧ (app.sort_field ≠ f →
      (set_sort_field f app).sort_order = SortOrder.Descending)
    ∧ (set_sort_field f app).sort_field = f
    ∧ (set_sort_field f app).selected_index = 0
    ∧ (set_sort_field f app).data =
        sortViewData f (set_sort_field f app).sort_order app.data := by
  by_cases hf : app.sort_field = f
  · subst hf
    have hcond : ¬ app.sort_field ≠ app.sort_field := fun hc => hc rfl
    simp only [set_sort_field, if_neg hcond]
    refine ⟨fun _ => rfl, fun hc => absurd rfl hc, rfl, rfl, ?_⟩
    show sortViewData app.sort_field (flipOrder app.sort_order)
        (sortViewData app.sort_field (flipOrder app.sort_order) app.data) = _
    exact sortViewData_idem _ _ _
  · simp only [set_sort_field, if_pos hf]
    exact ⟨fun hc => absurd hc hf, fun _ => rfl, rfl, rfl, rfl⟩

/-- Witness for C8: selecting Commits while sorted by Commits Descending
flips to Ascending; selecting Lines instead resets to Descending. -/
theorem C8_set_sort_field_witness :
    (set_sort_field SortField.Commits C8app).sort_order = flipOrder C8app.sort_order ∧
    (set_sort_field SortField.Lines C8app).sort_order = SortOrder.Descending :=
  ⟨(C8_set_sort_field C8app SortField.Commits).1 rfl,
   (C8_set_sort_field C8app SortField.Lines).2.1 (by decide)⟩

/-- Counterexample to C9 as stated: for rows NOT currently sorted by the
active field and order, toggling the sort order twice does not return them
to their previous order (each toggle re-sorts, so the first toggle already
destroys the original order). -/
theorem C9_counterexample :
    (toggle_sort_order (toggle_sort_order C9app)).data ≠ C9app.data := by decide

/-- Claim C9 amended: applying the same sort twice equals applying it once
(idempotence, for every row list), and toggling the order twice restores
both the order and the exact row order PROVIDED the rows were sorted by the
active field and order beforehand (as they are in every reachable dashboard
state, since every load and sort change re-sorts); for arbitrary unsorted
rows the double toggle need not restore the original order. -/
theorem C9_sort_idempotent_and_toggle (app : AppState) :
    apply_sort (apply_sort app) = apply_sort app
    ∧ (toggle_sort_order (toggle_sort_order app)).sort_order = app.sort_order
    ∧ (viewDataSortedBy app.sort_field app.sort_order app.data →
        (toggle_sort_order (toggle_sort_order app)).data = app.data) := by
  refine ⟨?_, ?_, ?_⟩
  · simp [apply_sort, sortViewData_idem]
  · cases ho : app.sort_order <;> simp [toggle_sort_order, apply_sort, flipOrder, ho]
  · intro h
    have hff : flipOrder (flipOrder app.sort_order) = app.sort_order := by
      cases app.sort_order <;> rfl
    show sortViewData app.sort_field (flipOrder (flipOrder app.sort_order))
        (sortViewData app.sort_field (flipOrder app.sort_order) app.data) = app.data
    rw [hff]
    exact sortViewData_toggle _ _ _ h

/-- Witness for C9 (amended): on rows sorted by Commits Descending, toggling
twice restores the exact row order. -/
theorem C9_sort_idempotent_and_toggle_witness :
    (toggle_sort_order (toggle_sort_order C9appSorted)).data = C9appSorted.data :=
  (C9_sort_idempotent_and_toggle C9appSorted).2.2 (by
    show List.Sorted (descKey (fun r : OrgStats => r.total_commits)) [C9org2, C9org1]
    decide)

/-- Claim C10: when the view data is Loading, an Error or a
ContributorDetail, or the selected index is not a valid row index, or no
snapshot is selected, a drill-down request leaves the dashboard state
entirely unchanged (no history push, same view, data and selection); the
out-of-range row lookup cannot fail. -/
theorem C10_drill_down_frame (db : Db) (app : AppState)
    (h : app.current_scrape = none ∨ dataBlocksDrill app.data = true ∨
         get_item_count app ≤ app.selected_index) :
    drill_down db app = app := by
  unfold drill_down
  by_cases hs : app.is_scraping
  · rw [if_pos hs]
  · rw [if_neg hs]
    cases hcs : app.current_scrape with
    | none => rfl
    | some sid =>
        rcases h with h | h | h
        · rw [hcs] at h
          exact Option.noConfusion h
        · cases hd : app.data with
          | Loading => rfl
          | Error msg => rfl
          | ContributorDetail d => rfl
          | Orgs l => rw [hd] at h; simp [dataBlocksDrill] at h
          | Repos l => rw [hd] at h; simp [dataBlocksDrill] at h
          | Contributors l => rw [hd] at h; simp [dataBlocksDrill] at h
          | OrgDetail d => rw [hd] at h; simp [dataBlocksDrill] at h
          | RepoDetail d => rw [hd] at h; simp [dataBlocksDrill] at h
        · cases hd : app.data with
          | Loading => rfl
          | Error msg => rfl
          | ContributorDetail d => rfl
          | Orgs l =>
              have hn : l[app.selected_index]? = none := by
                rw [List.getElem?_eq_none_iff]
                simpa [get_item_count, hd] using h
              simp [hn]
          | Repos l =>
              have hn : l[app.selected_index]? = none := by
                rw [List.getElem?_eq_none_iff]
                simpa [get_item_count, hd] using h
              simp [hn]
          | Contributors l =>
              have hn : l[app.selected_index]? = none := by
                rw [List.getElem?_eq_none_iff]
                simpa [get_item_count, hd] using h
              simp [hn]
          | OrgDetail d =>
              have hn : d.repos[app.selected_index]? = none := by
                rw [List.getElem?_eq_none_iff]
                simpa [get_item_count, hd] using h
              simp [hn]
          | RepoDetail d =>
              have hn : d.contributors[app.selected_index]? = none := by
                rw [List.getElem?_eq_none_iff]
                simpa [get_item_count, hd] using h
              simp [hn]

/-- Witness for C10: a drill-down request on a Loading view changes
nothing. -/
theorem C10_drill_down_frame_witness : drill_down demoDb C10app = C10app :=
  C10_drill_down_frame demoDb C10app (Or.inr (Or.inl rfl))

end OrgPulse
